import Mathlib

/-!
# Verification of the Pack data-challenge pipeline core

Shallow embedding of the pipeline's core logic, translated from the
repository's Python/SQL sources:

* session pairing (the CTE pipeline in `tests/test_pipeline.py`,
  `TestSessionPairing._run_pairing` and `TestIntegration._build_dim_fact_tables`,
  mirroring `fct_sessions.sql`);
* the Wilson confidence interval (`run_pipeline.py:_wilson_ci`);
* configuration validation (`config.py:PipelineConfig.validate`);
* the data-quality rule engine (`src/validate.py:run_checks`);
* the step-timeout watchdog decision logic (`src/utils.py:StepTimer`);
* ingestion idempotence (`src/ingest.py`).

Timestamps are modelled as integers (minutes since an arbitrary epoch), so
`DATEDIFF('minute', a, b)` is exactly `b - a`.  Machine floats are idealised
as real numbers; Python string formatting of payloads inside log messages is
abstracted into injective message-constructor functions of the payload.
-/

set_option autoImplicit false

namespace Pack

/-! ## Session pairing engine

Translated from the SQL in `tests/test_pipeline.py`
(`_build_dim_fact_tables`, lines 637-676, and `_run_pairing`, lines 276-311),
which mirrors the production `fct_sessions.sql` dbt model:

```sql
WITH starts AS (
  SELECT event_id AS session_id, CAST(user_id AS BIGINT) AS user_id,
         TRIM(mentor_id) AS mentor_id, CAST("timestamp" AS TIMESTAMP) AS started_at,
         LEAD(CAST("timestamp" AS TIMESTAMP)) OVER (
              PARTITION BY CAST(user_id AS BIGINT), TRIM(mentor_id)
              ORDER BY "timestamp") AS next_start_at
  FROM raw_events WHERE event_type = 'session_started'),
ends AS (
  SELECT CAST(user_id AS BIGINT) AS user_id, TRIM(mentor_id) AS mentor_id,
         CAST("timestamp" AS TIMESTAMP) AS ended_at
  FROM raw_events WHERE event_type = 'session_ended'),
paired AS (
  SELECT s.session_id, s.user_id, s.mentor_id, s.started_at,
         MIN(e.ended_at) AS ended_at
  FROM starts s LEFT JOIN ends e
    ON  s.user_id = e.user_id AND s.mentor_id = e.mentor_id
    AND e.ended_at > s.started_at
    AND (s.next_start_at IS NULL OR e.ended_at < s.next_start_at)
  GROUP BY s.session_id, s.user_id, s.mentor_id, s.started_at)
SELECT ..., COALESCE(DATEDIFF('minute', started_at, ended_at), 30) AS duration_minutes,
       ended_at IS NULL AS is_duration_estimated, ...
FROM paired
```

The `COALESCE` default is the literal 30 in the test mirror; the dbt model
receives it from `config.default_session_duration_minutes` via `--vars`
(`run_pipeline.py`, `_dbt_vars`), so it is kept as a parameter
`defaultDuration` here.  SQL's `LEAD ... ORDER BY timestamp` leaves the
relative order of equal timestamps unspecified; we determinise it by a stable
sort of the partition's start events in their original order.
-/

structure Event where
  event_id   : String
  user_id    : Int
  mentor_id  : String
  timestamp  : Int
  event_type : String
deriving DecidableEq, Repr

/-- Drop leading whitespace characters. -/
def dropLeadingWs : List Char → List Char
  | [] => []
  | c :: rest => if c.isWhitespace then dropLeadingWs rest else c :: rest

/-- SQL `TRIM`: strip whitespace from both ends (structural recursion so that
concrete instances reduce in the kernel). -/
def sqlTrim (s : String) : String :=
  String.mk (dropLeadingWs (dropLeadingWs s.data).reverse).reverse

/-- `PARTITION BY CAST(user_id AS BIGINT), TRIM(mentor_id)`. -/
def partitionKey (e : Event) : Int × String := (e.user_id, sqlTrim e.mentor_id)

/-- `FROM raw_events WHERE event_type = 'session_started'`. -/
def sessionStarts (events : List Event) : List Event :=
  events.filter (fun e => e.event_type = "session_started")

/-- `FROM raw_events WHERE event_type = 'session_ended'`. -/
def sessionEnds (events : List Event) : List Event :=
  events.filter (fun e => e.event_type = "session_ended")

/-- Insert `e` into a timestamp-sorted list, before any element of equal
timestamp (stability: `e` is the earlier row in the original order). -/
def insertByTs (e : Event) : List Event → List Event
  | [] => [e]
  | a :: rest =>
    if a.timestamp < e.timestamp then a :: insertByTs e rest else e :: a :: rest

/-- Stable sort by timestamp ascending (structural recursion so that concrete
instances reduce in the kernel). -/
def sortByTs : List Event → List Event
  | [] => []
  | a :: rest => insertByTs a (sortByTs rest)

/-- The start events of one `(user, mentor)` partition, ordered by
timestamp ascending (stable sort, original order breaking ties). -/
def startsOfPartition (events : List Event) (k : Int × String) : List Event :=
  sortByTs ((sessionStarts events).filter (fun e => partitionKey e = k))

/-- Timestamp of the element following `s` in the list, if any. -/
def nextAfter : List Event → Event → Option Int
  | [], _ => none
  | [_], _ => none
  | a :: b :: rest, s => if a = s then some b.timestamp else nextAfter (b :: rest) s

/-- `LEAD("timestamp") OVER (PARTITION BY user_id, mentor_id ORDER BY "timestamp")`
for the start event `s`. -/
def nextStartAt (events : List Event) (s : Event) : Option Int :=
  nextAfter (startsOfPartition events (partitionKey s)) s

/-- The `session_ended` timestamps joined to the start `s`:
same partition, `e.ended_at > s.started_at`, and
`(s.next_start_at IS NULL OR e.ended_at < s.next_start_at)`. -/
def candidateEnds (events : List Event) (s : Event) : List Int :=
  (((sessionEnds events).filter (fun e => partitionKey e = partitionKey s)).map
      (fun e => e.timestamp)).filter
    (fun t => decide (s.timestamp < t) &&
      match nextStartAt events s with
      | none => true
      | some n => decide (t < n))

/-- SQL `MIN` aggregate over a (possibly empty) group: `NULL` on no rows. -/
def listMin : List Int → Option Int
  | [] => none
  | t :: ts =>
    match listMin ts with
    | none => some t
    | some m => some (min t m)

structure SessionRow where
  session_id            : String
  user_id               : Int
  mentor_id             : String
  started_at            : Int
  ended_at              : Option Int
  duration_minutes      : Int
  is_duration_estimated : Bool
deriving DecidableEq, Repr

/-- One row of `paired`/`fct_sessions` for the start event `s`. -/
def pairSession (events : List Event) (defaultDuration : Int) (s : Event) : SessionRow :=
  let ended := listMin (candidateEnds events s)
  { session_id := s.event_id
    user_id := s.user_id
    mentor_id := sqlTrim s.mentor_id
    started_at := s.timestamp
    ended_at := ended
    duration_minutes :=
      match ended with
      | some e => e - s.timestamp
      | none => defaultDuration
    is_duration_estimated := ended.isNone }

/-- The full `fct_sessions` table: one row per `session_started` event. -/
def buildSessions (events : List Event) (defaultDuration : Int) : List SessionRow :=
  (sessionStarts events).map (pairSession events defaultDuration)

/-! Spec-side description of a qualifying end event, written from the spec's
words (§4.1): a `session_ended` event `E` in the same partition with
`E.timestamp > S.timestamp` and, when `S` has a next start, `E.timestamp`
strictly before it. -/

/-- The spec's candidate-end predicate for start `s` at end timestamp `t`. -/
def specCandidateEnd (events : List Event) (s : Event) (t : Int) : Prop :=
  (∃ e ∈ events, e.event_type = "session_ended" ∧
      partitionKey e = partitionKey s ∧ e.timestamp = t) ∧
  s.timestamp < t ∧
  (∀ n, nextStartAt events s = some n → t < n)

-- Sanity examples on the boundary-isolation fixture from
-- `test_lead_boundary_isolates_missing_end` (timestamps in minutes).
def evE1 : Event := ⟨"e1", 1, "M01", 600, "session_started"⟩
def evE3 : Event := ⟨"e3", 1, "M01", 660, "session_started"⟩
def evE4 : Event := ⟨"e4", 1, "M01", 690, "session_ended"⟩

def boundaryEvents : List Event := [evE1, evE3, evE4]

theorem pairSession_ended_at (events : List Event) (d : Int) (s : Event) :
    (pairSession events d s).ended_at = listMin (candidateEnds events s) := rfl

theorem pairSession_estimated (events : List Event) (d : Int) (s : Event) :
    (pairSession events d s).is_duration_estimated =
      (listMin (candidateEnds events s)).isNone := rfl

theorem pairSession_duration (events : List Event) (d : Int) (s : Event) :
    (pairSession events d s).duration_minutes =
      match listMin (candidateEnds events s) with
      | some e => e - s.timestamp
      | none => d := rfl

theorem listMin_eq_none_iff (l : List Int) : listMin l = none ↔ l = [] := by
  cases l with
  | nil => simp [listMin]
  | cons t ts =>
    simp only [listMin]
    cases listMin ts <;> simp

theorem listMin_eq_some_iff (l : List Int) : ∀ m : Int,
    listMin l = some m ↔ m ∈ l ∧ ∀ x ∈ l, m ≤ x := by
  induction l with
  | nil => intro m; simp [listMin]
  | cons t ts ih =>
    intro m
    cases h : listMin ts with
    | none =>
      have hts : ts = [] := (listMin_eq_none_iff ts).1 h
      subst hts
      simp [listMin]
      omega
    | some m' =>
      have hm' := (ih m').1 h
      simp only [listMin, h]
      constructor
      · intro h2
        have h3 : min t m' = m := by exact Option.some.inj h2
        subst h3
        refine ⟨?_, ?_⟩
        · rcases le_total t m' with hle | hle
          · simp [min_eq_left hle]
          · rw [min_eq_right hle]; exact List.mem_cons_of_mem _ hm'.1
        · intro x hx
          rcases List.mem_cons.1 hx with rfl | hx
          · exact min_le_left _ _
          · exact le_trans (min_le_right _ _) (hm'.2 x hx)
      · rintro ⟨hmem, hb⟩
        have h1 : min t m' ≤ m := by
          rcases List.mem_cons.1 hmem with rfl | hx
          · exact min_le_left _ _
          · exact le_trans (min_le_right _ _) (hm'.2 m hx)
        have h2 : m ≤ min t m' :=
          le_min (hb t (List.mem_cons_self _ _))
            (hb m' (List.mem_cons_of_mem _ hm'.1))
        exact congrArg some (le_antisymm h1 h2)

theorem mem_candidateEnds (events : List Event) (s : Event) (t : Int) :
    t ∈ candidateEnds events s ↔ specCandidateEnd events s t := by
  unfold candidateEnds specCandidateEnd sessionEnds
  cases h : nextStartAt events s with
  | none =>
    simp only [h, List.mem_filter, List.mem_map, decide_eq_true_eq,
      Bool.and_eq_true]
    constructor
    · rintro ⟨⟨e, ⟨⟨he, hty⟩, hk⟩, hts⟩, hlt, -⟩
      exact ⟨⟨e, he, hty, hk, hts⟩, hlt, fun n hn => by simp at hn⟩
    · rintro ⟨⟨e, he, hty, hk, hts⟩, hlt, -⟩
      exact ⟨⟨e, ⟨⟨he, hty⟩, hk⟩, hts⟩, hlt, trivial⟩
  | some n =>
    simp only [h, List.mem_filter, List.mem_map, decide_eq_true_eq,
      Bool.and_eq_true]
    constructor
    · rintro ⟨⟨e, ⟨⟨he, hty⟩, hk⟩, hts⟩, hlt, hn⟩
      exact ⟨⟨e, he, hty, hk, hts⟩, hlt, fun n' hn' => by
        rw [Option.some.inj hn'] at hn; exact hn⟩
    · rintro ⟨⟨e, he, hty, hk, hts⟩, hlt, hn⟩
      exact ⟨⟨e, ⟨⟨he, hty⟩, hk⟩, hts⟩, hlt, hn n rfl⟩

theorem candidateEnds_eq_nil_iff (events : List Event) (s : Event) :
    candidateEnds events s = [] ↔ ∀ t, ¬ specCandidateEnd events s t := by
  rw [List.eq_nil_iff_forall_not_mem]
  exact forall_congr' fun t => not_congr (mem_candidateEnds events s t)

/-- C1: for every event set, the pairing attributes to a start event `S` only
`session_ended` events of the same `(user, mentor)` partition lying strictly
after `S` and strictly before the partition's next start (when one exists),
and among those it chooses the earliest; moreover on the boundary-isolation
fixture (two consecutive starts, first end missing, one end after the second
start) the end is attributed to the second start and the first gets none. -/
theorem pairing_attributes_earliest_end_in_window :
    (∀ (events : List Event) (d : Int) (s : Event),
      (∀ t, (pairSession events d s).ended_at = some t →
        specCandidateEnd events s t ∧ ∀ u, specCandidateEnd events s u → t ≤ u) ∧
      ((pairSession events d s).ended_at = none →
        ∀ t, ¬ specCandidateEnd events s t)) ∧
    buildSessions boundaryEvents 30 =
      [{ session_id := "e1", user_id := 1, mentor_id := "M01", started_at := 600,
         ended_at := none, duration_minutes := 30, is_duration_estimated := true },
       { session_id := "e3", user_id := 1, mentor_id := "M01", started_at := 660,
         ended_at := some 690, duration_minutes := 30, is_duration_estimated := false }] := by
  constructor
  · intro events d s
    constructor
    · intro t ht
      rw [pairSession_ended_at] at ht
      have hmin := (listMin_eq_some_iff _ t).1 ht
      exact ⟨(mem_candidateEnds events s t).1 hmin.1,
        fun u hu => hmin.2 u ((mem_candidateEnds events s u).2 hu)⟩
    · intro h t
      rw [pairSession_ended_at, listMin_eq_none_iff] at h
      exact (candidateEnds_eq_nil_iff events s).1 h t
  · decide

/-- Witness for C1 at the boundary-isolation fixture: the end at 690 is a
qualifying candidate of the second start `e3`, and the first start `e1` has
no qualifying candidate at all. -/
theorem pairing_attributes_earliest_end_in_window_witness :
    specCandidateEnd boundaryEvents evE3 690 ∧
      (∀ t, ¬ specCandidateEnd boundaryEvents evE1 t) :=
  ⟨(((pairing_attributes_earliest_end_in_window).1 boundaryEvents 30 evE3).1 690
      (by decide)).1,
    ((pairing_attributes_earliest_end_in_window).1 boundaryEvents 30 evE1).2
      (by decide)⟩

/-- C2: a start with no qualifying end yields `ended_at = none`,
`is_duration_estimated = true` and the configured default duration; a start
with a qualifying end yields `duration_minutes = end - start` (whole minutes)
and `is_duration_estimated = false`. -/
theorem missing_end_defaults_duration :
    ∀ (events : List Event) (d : Int) (s : Event),
      ((∀ t, ¬ specCandidateEnd events s t) →
        (pairSession events d s).ended_at = none ∧
        (pairSession events d s).is_duration_estimated = true ∧
        (pairSession events d s).duration_minutes = d) ∧
      (∀ t, (pairSession events d s).ended_at = some t →
        (pairSession events d s).duration_minutes = t - s.timestamp ∧
        (pairSession events d s).is_duration_estimated = false) := by
  intro events d s
  constructor
  · intro h
    have hnil : candidateEnds events s = [] := (candidateEnds_eq_nil_iff events s).2 h
    have hmin : listMin (candidateEnds events s) = none := by
      rw [hnil]; rfl
    refine ⟨?_, ?_, ?_⟩
    · rw [pairSession_ended_at, hmin]
    · rw [pairSession_estimated, hmin]; rfl
    · rw [pairSession_duration, hmin]
  · intro t ht
    rw [pairSession_ended_at] at ht
    constructor
    · rw [pairSession_duration, ht]
    · rw [pairSession_estimated, ht]; rfl

/-- Witness for C2: on the boundary fixture, `e1` has no qualifying end (row
gets `none`, estimated, default 30) and `e3` pairs with the end at 690. -/
theorem missing_end_defaults_duration_witness :
    ((pairSession boundaryEvents 30 evE1).ended_at = none ∧
      (pairSession boundaryEvents 30 evE1).is_duration_estimated = true ∧
      (pairSession boundaryEvents 30 evE1).duration_minutes = 30) ∧
    ((pairSession boundaryEvents 30 evE3).duration_minutes = 690 - evE3.timestamp ∧
      (pairSession boundaryEvents 30 evE3).is_duration_estimated = false) :=
  ⟨(missing_end_defaults_duration boundaryEvents 30 evE1).1
      ((candidateEnds_eq_nil_iff boundaryEvents evE1).1 (by decide)),
    (missing_end_defaults_duration boundaryEvents 30 evE3).2 690 (by decide)⟩

/-! ### Partition locality (C7) -/

theorem filter_swap {α : Type} (p q : α → Bool) (l : List α) :
    (l.filter p).filter q = (l.filter q).filter p := by
  induction l with
  | nil => rfl
  | cons a t ih =>
    by_cases hp : p a <;> by_cases hq : q a <;>
      simp [List.filter_cons, hp, hq, ih]

theorem filter_map_comm {α β : Type} (f : α → β) (p : β → Bool) (l : List α) :
    (l.map f).filter p = (l.filter (fun a => p (f a))).map f := by
  induction l with
  | nil => rfl
  | cons a t ih =>
    by_cases h : p (f a) <;> simp [List.filter_cons, h, ih]

theorem startsOfPartition_congr {events1 events2 : List Event} {k : Int × String}
    (h : events1.filter (fun e => partitionKey e = k) =
      events2.filter (fun e => partitionKey e = k)) :
    startsOfPartition events1 k = startsOfPartition events2 k := by
  unfold startsOfPartition sessionStarts
  rw [filter_swap, h, ← filter_swap]

theorem nextStartAt_congr {events1 events2 : List Event} {k : Int × String}
    (h : events1.filter (fun e => partitionKey e = k) =
      events2.filter (fun e => partitionKey e = k))
    {s : Event} (hs : partitionKey s = k) :
    nextStartAt events1 s = nextStartAt events2 s := by
  unfold nextStartAt
  rw [hs, startsOfPartition_congr h]

theorem candidateEnds_congr {events1 events2 : List Event} {k : Int × String}
    (h : events1.filter (fun e => partitionKey e = k) =
      events2.filter (fun e => partitionKey e = k))
    {s : Event} (hs : partitionKey s = k) :
    candidateEnds events1 s = candidateEnds events2 s := by
  unfold candidateEnds sessionEnds
  rw [nextStartAt_congr h hs, hs, filter_swap, h, ← filter_swap]

theorem pairSession_congr {events1 events2 : List Event} {k : Int × String}
    (h : events1.filter (fun e => partitionKey e = k) =
      events2.filter (fun e => partitionKey e = k))
    {s : Event} (hs : partitionKey s = k) (d : Int) :
    pairSession events1 d s = pairSession events2 d s := by
  unfold pairSession
  rw [candidateEnds_congr h hs]

theorem buildSessions_filter_key (events : List Event) (d : Int) (k : Int × String) :
    (buildSessions events d).filter (fun r => (r.user_id, r.mentor_id) = k) =
      ((sessionStarts events).filter (fun s => partitionKey s = k)).map
        (pairSession events d) := by
  unfold buildSessions
  rw [filter_map_comm]
  exact congrArg (List.map (pairSession events d)) (List.filter_congr fun s _ => rfl)

/-- C7: session pairing is a function of the `(user, mentor)` partition only:
if two event sets agree on the events of partition `k`, the session rows
produced for partition `k` are identical. -/
theorem pairing_is_partition_local :
    ∀ (d : Int) (k : Int × String) (events1 events2 : List Event),
      events1.filter (fun e => partitionKey e = k) =
        events2.filter (fun e => partitionKey e = k) →
      (buildSessions events1 d).filter (fun r => (r.user_id, r.mentor_id) = k) =
        (buildSessions events2 d).filter (fun r => (r.user_id, r.mentor_id) = k) := by
  intro d k events1 events2 h
  rw [buildSessions_filter_key, buildSessions_filter_key]
  have hstarts : (sessionStarts events1).filter (fun s => partitionKey s = k) =
      (sessionStarts events2).filter (fun s => partitionKey s = k) := by
    unfold sessionStarts
    rw [filter_swap, h, ← filter_swap]
  rw [hstarts]
  exact List.map_congr_left fun s hsmem =>
    pairSession_congr h (of_decide_eq_true (List.mem_filter.1 hsmem).2) d

/-- An event of a different partition (user 2) appended to the boundary
fixture. -/
def evOther : Event := ⟨"x1", 2, "M02", 650, "session_ended"⟩

/-- Witness for C7: adding a foreign-partition event to the boundary fixture
does not change partition `(1, "M01")`'s session rows. -/
theorem pairing_is_partition_local_witness :
    boundaryEvents.filter (fun e => partitionKey e = ((1 : Int), "M01")) =
        (boundaryEvents ++ [evOther]).filter
          (fun e => partitionKey e = ((1 : Int), "M01")) ∧
      (buildSessions boundaryEvents 30).filter
          (fun r => (r.user_id, r.mentor_id) = ((1 : Int), "M01")) =
        (buildSessions (boundaryEvents ++ [evOther]) 30).filter
          (fun r => (r.user_id, r.mentor_id) = ((1 : Int), "M01")) :=
  ⟨by decide,
    pairing_is_partition_local 30 ((1 : Int), "M01") boundaryEvents
      (boundaryEvents ++ [evOther]) (by decide)⟩

/-! ## Wilson confidence interval

Translated from `run_pipeline.py:_wilson_ci` (lines 83-91):

```python
def _wilson_ci(k: int, n: int, z: float = 1.96) -> tuple[float, float]:
    if n == 0:
        return (0.0, 0.0)
    p = k / n
    denom  = 1 + z ** 2 / n
    centre = (p + z ** 2 / (2 * n)) / denom
    margin = z * math.sqrt(p * (1 - p) / n + z ** 2 / (4 * n ** 2)) / denom
    return (max(0.0, centre - margin) * 100, min(100.0, centre + margin) * 100)
```

Machine floats are idealised as real numbers.  The local variables `centre`
and `margin` are hoisted into named definitions so the theorems can refer to
them; `z` is an explicit parameter (the Python default, used at every call
site, is 1.96). -/

noncomputable def wilson_centre (k n : ℕ) (z : ℝ) : ℝ :=
  ((k : ℝ) / n + z ^ 2 / (2 * n)) / (1 + z ^ 2 / n)

noncomputable def wilson_margin (k n : ℕ) (z : ℝ) : ℝ :=
  z * Real.sqrt ((k : ℝ) / n * (1 - (k : ℝ) / n) / n + z ^ 2 / (4 * (n : ℝ) ^ 2)) /
    (1 + z ^ 2 / n)

noncomputable def wilson_ci (k n : ℕ) (z : ℝ) : ℝ × ℝ :=
  if n = 0 then (0, 0)
  else (max 0 (wilson_centre k n z - wilson_margin k n z) * 100,
        min 100 (wilson_centre k n z + wilson_margin k n z) * 100)

/-- The pair the spec describes: `[clamp(0, centre-margin), clamp(1, centre+margin)]`
as percentages (the spec clamps the upper bound at 1 before scaling, the code
clamps at 100 before scaling; the two agree because `centre + margin ≤ 1`). -/
noncomputable def wilson_ci_specPair (k n : ℕ) (z : ℝ) : ℝ × ℝ :=
  if n = 0 then (0, 0)
  else (max 0 (wilson_centre k n z - wilson_margin k n z) * 100,
        min 1 (wilson_centre k n z + wilson_margin k n z) * 100)

theorem wilson_key (p N z : ℝ) (hp0 : 0 ≤ p) (hp1 : p ≤ 1) (hN : 0 < N)
    (hz : 0 < z) :
    z * Real.sqrt (p * (1 - p) / N + z ^ 2 / (4 * N ^ 2)) ≤
      (1 - p) + z ^ 2 / (2 * N) := by
  have hB : 0 ≤ (1 - p) + z ^ 2 / (2 * N) :=
    add_nonneg (by linarith) (by positivity)
  have key : p * (1 - p) / N + z ^ 2 / (4 * N ^ 2) ≤
      (((1 - p) + z ^ 2 / (2 * N)) / z) ^ 2 := by
    rw [div_pow, le_div_iff (by positivity)]
    have hN' : N ≠ 0 := ne_of_gt hN
    have hz' : z ≠ 0 := ne_of_gt hz
    field_simp
    rw [div_le_div_iff (by positivity) (by positivity)]
    nlinarith [mul_nonneg (pow_pos hN 5).le (sq_nonneg (1 - p)),
      mul_nonneg (mul_nonneg (pow_pos hN 4).le (sq_nonneg z)) (sq_nonneg (1 - p))]
  calc z * Real.sqrt (p * (1 - p) / N + z ^ 2 / (4 * N ^ 2)) ≤
      z * (((1 - p) + z ^ 2 / (2 * N)) / z) := by
        refine mul_le_mul_of_nonneg_left ?_ hz.le
        calc Real.sqrt (p * (1 - p) / N + z ^ 2 / (4 * N ^ 2)) ≤
            Real.sqrt ((((1 - p) + z ^ 2 / (2 * N)) / z) ^ 2) :=
              Real.sqrt_le_sqrt key
          _ = ((1 - p) + z ^ 2 / (2 * N)) / z :=
              Real.sqrt_sq (div_nonneg hB hz.le)
    _ = (1 - p) + z ^ 2 / (2 * N) := by
        field_simp
        ring

/-- C3: `_wilson_ci` returns `(0, 0)` at `n = 0`; for `0 ≤ k ≤ n`, `n > 0`,
it returns exactly the spec's clamped pair scaled to percentages, and
`0 ≤ lower ≤ centre·100 ≤ upper ≤ 100`. -/
theorem wilson_ci_bounds :
    wilson_ci 0 0 1.96 = (0, 0) ∧
    ∀ k n : ℕ, k ≤ n → 0 < n →
      wilson_ci k n 1.96 = wilson_ci_specPair k n 1.96 ∧
      0 ≤ (wilson_ci k n 1.96).1 ∧
      (wilson_ci k n 1.96).1 ≤ wilson_centre k n 1.96 * 100 ∧
      wilson_centre k n 1.96 * 100 ≤ (wilson_ci k n 1.96).2 ∧
      (wilson_ci k n 1.96).2 ≤ 100 := by
  constructor
  · simp [wilson_ci]
  · intro k n hkn hn
    have hNpos : (0 : ℝ) < n := by exact_mod_cast hn
    have hk : (k : ℝ) ≤ n := by exact_mod_cast hkn
    have hz : (0 : ℝ) < 1.96 := by norm_num
    have hp0 : (0 : ℝ) ≤ (k : ℝ) / n := by positivity
    have hp1 : (k : ℝ) / n ≤ 1 := (div_le_one hNpos).2 hk
    have hdenom : (0 : ℝ) < 1 + (1.96 : ℝ) ^ 2 / n := by positivity
    have hmargin0 : 0 ≤ wilson_margin k n 1.96 := by
      unfold wilson_margin
      exact div_nonneg (mul_nonneg hz.le (Real.sqrt_nonneg _)) hdenom.le
    have hcentre0 : 0 ≤ wilson_centre k n 1.96 := by
      unfold wilson_centre
      positivity
    have hcentre1 : wilson_centre k n 1.96 ≤ 1 := by
      unfold wilson_centre
      rw [div_le_one hdenom]
      have h1 : (1.96 : ℝ) ^ 2 / (2 * n) ≤ (1.96 : ℝ) ^ 2 / n := by
        rw [show (2 * (n : ℝ)) = (n : ℝ) * 2 by ring, ← div_div]
        have hx : (0 : ℝ) ≤ (1.96 : ℝ) ^ 2 / n := by positivity
        linarith
      linarith
    have hsum1 : wilson_centre k n 1.96 + wilson_margin k n 1.96 ≤ 1 := by
      unfold wilson_centre wilson_margin
      rw [div_add_div_same, div_le_one hdenom]
      have hkey := wilson_key ((k : ℝ) / n) n 1.96 hp0 hp1 hNpos hz
      have hhalf : (1.96 : ℝ) ^ 2 / (2 * (n : ℝ)) + (1.96 : ℝ) ^ 2 / (2 * (n : ℝ)) =
          (1.96 : ℝ) ^ 2 / n := by
        field_simp
        ring
      linarith
    have hci : wilson_ci k n 1.96 =
        (max 0 (wilson_centre k n 1.96 - wilson_margin k n 1.96) * 100,
          min 100 (wilson_centre k n 1.96 + wilson_margin k n 1.96) * 100) := by
      rw [wilson_ci, if_neg hn.ne']
    have hspec : wilson_ci_specPair k n 1.96 =
        (max 0 (wilson_centre k n 1.96 - wilson_margin k n 1.96) * 100,
          min 1 (wilson_centre k n 1.96 + wilson_margin k n 1.96) * 100) := by
      rw [wilson_ci_specPair, if_neg hn.ne']
    refine ⟨?_, ?_, ?_, ?_, ?_⟩
    · rw [hci, hspec]
      have h100 : min 100 (wilson_centre k n 1.96 + wilson_margin k n 1.96) =
          wilson_centre k n 1.96 + wilson_margin k n 1.96 :=
        min_eq_right (by linarith)
      have h1 : min 1 (wilson_centre k n 1.96 + wilson_margin k n 1.96) =
          wilson_centre k n 1.96 + wilson_margin k n 1.96 :=
        min_eq_right hsum1
      rw [h100, h1]
    · rw [hci]
      exact mul_nonneg (le_max_left _ _) (by norm_num)
    · rw [hci]
      refine mul_le_mul_of_nonneg_right ?_ (by norm_num)
      exact max_le hcentre0 (by linarith)
    · rw [hci]
      refine mul_le_mul_of_nonneg_right ?_ (by norm_num)
      exact le_min (by linarith) (by linarith)
    · rw [hci]
      have hmin : min 100 (wilson_centre k n 1.96 + wilson_margin k n 1.96) ≤ 1 :=
        le_trans (min_le_right _ _) hsum1
      nlinarith
/-- Witness for C3 at `k = 1`, `n = 4`. -/
theorem wilson_ci_bounds_witness :
    (1 : ℕ) ≤ 4 ∧ (0 : ℕ) < 4 ∧
      (wilson_ci 1 4 1.96 = wilson_ci_specPair 1 4 1.96 ∧
        0 ≤ (wilson_ci 1 4 1.96).1 ∧
        (wilson_ci 1 4 1.96).1 ≤ wilson_centre 1 4 1.96 * 100 ∧
        wilson_centre 1 4 1.96 * 100 ≤ (wilson_ci 1 4 1.96).2 ∧
        (wilson_ci 1 4 1.96).2 ≤ 100) :=
  ⟨by decide, by decide, wilson_ci_bounds.2 1 4 (by decide) (by decide)⟩

/-! ## Pipeline configuration

Translated from `config.py:PipelineConfig` and
`PipelineConfig.validate` (lines 117-135).  Only the fields the core logic
reads are modelled; `dq_max_orphan_rate` (a Python float) is idealised as a
rational. -/

structure PipelineConfig where
  default_session_duration_minutes : Int
  tiers_group_a : List String
  tiers_group_b : List String
  rebooking_window_days : Option Int
  dq_max_orphan_rate : ℚ
  dq_max_duration_minutes : Int
  step_timeout_seconds : Int
deriving DecidableEq, Repr

/-- `set(self.tiers_group_a) & set(self.tiers_group_b)` — the overlap is
non-empty exactly when this filter is non-empty. -/
def PipelineConfig.overlap (c : PipelineConfig) : List String :=
  c.tiers_group_a.filter (fun t => c.tiers_group_b.contains t)

/-- `PipelineConfig.validate`: raise `ValueError` (modelled as
`Except.error`) on a self-contradictory configuration. -/
def PipelineConfig.validate (c : PipelineConfig) : Except String Unit :=
  if c.tiers_group_a = [] then
    Except.error "tiers_group_a must contain at least one tier."
  else if c.tiers_group_b = [] then
    Except.error "tiers_group_b must contain at least one tier."
  else if c.overlap ≠ [] then
    Except.error "Tier groups must be mutually exclusive."
  else if c.default_session_duration_minutes ≤ 0 then
    Except.error "default_session_duration_minutes must be > 0."
  else
    match c.rebooking_window_days with
    | some w =>
      if w ≤ 0 then Except.error "rebooking_window_days must be > 0 or None."
      else Except.ok ()
    | none => Except.ok ()

/-- The phases `run_pipeline.main` executes for a given mode (mirroring the
`mode in (...)` guards and the `ingest-only` / `transform-only` early
returns). -/
def pipelinePhases (mode : String) : List String :=
  (if mode = "full" ∨ mode = "ingest-only" then ["ingest"] else []) ++
    (if mode = "full" ∨ mode = "transform-only" then ["transform", "validate"] else []) ++
    (if mode = "full" ∨ mode = "analysis-only" then ["analyse"] else [])

/-- Modelled from `run_pipeline.main` (lines 197-218), keeping only the
control flow relevant to validation ordering: `config.validate()` is invoked
before the run log is created and before any phase executes, so a validation
error means no phase runs. -/
def mainModel (config : PipelineConfig) (mode : String) : Except String (List String) :=
  match config.validate with
  | Except.error e => Except.error e
  | Except.ok _ => Except.ok (pipelinePhases mode)

theorem overlap_ne_nil_iff (c : PipelineConfig) :
    c.overlap ≠ [] ↔ ∃ t ∈ c.tiers_group_a, t ∈ c.tiers_group_b := by
  unfold PipelineConfig.overlap
  constructor
  · intro h
    rcases List.exists_mem_of_ne_nil _ h with ⟨t, ht⟩
    rcases List.mem_filter.1 ht with ⟨hta, htb⟩
    exact ⟨t, hta, by simpa using htb⟩
  · rintro ⟨t, hta, htb⟩ h
    have : t ∈ ([] : List String) := by
      rw [← h]
      exact List.mem_filter.2 ⟨hta, by simpa using htb⟩
    simp at this

/-- C6: `PipelineConfig.validate` errors exactly on an empty tier group, an
overlap between the groups, a non-positive default session duration, or a
configured non-positive rebooking window (`none` is valid); and the pipeline
entry point runs validation before any phase, so a validation error means no
phase starts. -/
theorem config_validate_iff_and_gates_pipeline :
    (∀ c : PipelineConfig,
      (∃ e, c.validate = Except.error e) ↔
        (c.tiers_group_a = [] ∨ c.tiers_group_b = [] ∨
          (∃ t ∈ c.tiers_group_a, t ∈ c.tiers_group_b) ∨
          c.default_session_duration_minutes ≤ 0 ∨
          (∃ w, c.rebooking_window_days = some w ∧ w ≤ 0))) ∧
    (∀ (c : PipelineConfig) (mode e : String),
      c.validate = Except.error e → mainModel c mode = Except.error e) := by
  constructor
  · intro c
    unfold PipelineConfig.validate
    by_cases h1 : c.tiers_group_a = []
    · simp [h1]
    · by_cases h2 : c.tiers_group_b = []
      · simp [h1, h2]
      · by_cases h3 : c.overlap ≠ []
        · simp [h1, h2, h3, (overlap_ne_nil_iff c).1 h3]
        · have hno : ¬∃ t ∈ c.tiers_group_a, t ∈ c.tiers_group_b :=
            fun hex => h3 ((overlap_ne_nil_iff c).2 hex)
          by_cases h4 : c.default_session_duration_minutes ≤ 0
          · simp [h1, h2, h3, h4]
          · cases hw : c.rebooking_window_days with
            | none => simp [h1, h2, h3, h4, hw, hno]
            | some w =>
              by_cases h5 : w ≤ 0 <;> simp [h1, h2, h3, h4, h5, hw, hno]
  · intro c mode e h
    unfold mainModel
    rw [h]

/-- A configuration with a non-positive default session duration. -/
def badConfig : PipelineConfig :=
  { default_session_duration_minutes := 0
    tiers_group_a := ["Gold"]
    tiers_group_b := ["Silver", "Bronze"]
    rebooking_window_days := some 30
    dq_max_orphan_rate := 1/20
    dq_max_duration_minutes := 240
    step_timeout_seconds := 300 }

/-- Witness for C6: the bad configuration fails validation and the pipeline
entry point propagates the error before any phase runs. -/
theorem config_validate_iff_and_gates_pipeline_witness :
    badConfig.validate =
        Except.error "default_session_duration_minutes must be > 0." ∧
      mainModel badConfig "full" =
        Except.error "default_session_duration_minutes must be > 0." :=
  ⟨rfl, config_validate_iff_and_gates_pipeline.2 badConfig "full" _ rfl⟩

/-! ## Data-quality rule engine

Translated from `src/validate.py`: `safe_fetchone` (118-124), `safe_fetchall`
(127-134), `_table_exists` (110-115) and `run_checks` (137-257).

The DuckDB query layer is modelled as an oracle (`DB`) recording, for each
query `run_checks` issues, one of three outcomes: a `duckdb.Error`, a `None`
result object, or a fetched row (whose fields may themselves be SQL `NULL`,
hence the inner `Option`s).  Queries whose SQL text depends on a runtime
parameter (the outlier threshold, the configured `IN`-list) are oracle
*functions* of that parameter.  `DataQualityError` is modelled as the
`Except.error` branch; Python string formatting of numeric payloads inside
messages is abstracted by the `check*Msg` constructors.  The two places an
error can surface for the same query (`con.execute` raising versus the fetch
raising) are collapsed into the single `err` outcome. -/

inductive FetchResult (α : Type) where
  | err (msg : String)
  | noneObj
  | row (r : Option α)
deriving DecidableEq, Repr

structure DB where
  negCount      : FetchResult (Option Int)
  outlierCount  : Int → FetchResult (Option Int)
  bookingsTable : FetchResult (Option Int)
  orphanRow     : FetchResult (Option Int × Option Int)
  existingTiers : List String → FetchResult (List String)
  availableTiers : FetchResult (List String)

/-- `validate.safe_fetchone`. -/
def safe_fetchone {α : Type} (result : FetchResult α) (query_name : String) :
    Except String (Option α) :=
  match result with
  | FetchResult.err e =>
    Except.error ("[" ++ query_name ++ "] DuckDB error: " ++ e)
  | FetchResult.noneObj =>
    Except.error ("[" ++ query_name ++ "] DuckDB returned None")
  | FetchResult.row r => Except.ok r

/-- `validate.safe_fetchall` (a `None` from `fetchall` is coerced to `[]`). -/
def safe_fetchall (result : FetchResult (List String)) (query_name : String) :
    Except String (List String) :=
  match result with
  | FetchResult.err e =>
    Except.error ("[" ++ query_name ++ "] DuckDB error: " ++ e)
  | FetchResult.noneObj =>
    Except.error ("[" ++ query_name ++ "] DuckDB returned None")
  | FetchResult.row none => Except.ok []
  | FetchResult.row (some rows) => Except.ok rows

/-- `validate._table_exists`: `bool(row and row[0])`; an engine error there is
caught by `run_checks`' outer handlers. -/
def table_exists (result : FetchResult (Option Int)) : Except String Bool :=
  match result with
  | FetchResult.err e => Except.error ("Database error: " ++ e)
  | FetchResult.noneObj =>
    Except.error ("Unexpected error: result object is None")
  | FetchResult.row none => Except.ok false
  | FetchResult.row (some none) => Except.ok false
  | FetchResult.row (some (some v)) => Except.ok (v != 0)

def check1Msg (negCount : Int) : String :=
  "FAIL [Check 1]: " ++ toString negCount ++ " sessions have negative " ++
    "duration. This indicates session_ended < session_started (data corruption)."

def check4Msg (outlierCount maxDurationMins : Int) : String :=
  "WARN [Check 4]: " ++ toString outlierCount ++ " sessions exceed " ++
    toString maxDurationMins ++ " min - likely clock drift."

def check5Msg (orphanCount totalBookings : Int) (threshold : ℚ) : String :=
  "WARN [Check 5]: " ++ toString orphanCount ++ "/" ++ toString totalBookings ++
    " bookings are orphan requests (no confirmed/cancelled follow-up). " ++
    "Threshold is " ++ toString threshold ++ "."

def check6Msg (missingTiers available : List String) : String :=
  "FAIL [Check 6]: Configured tier(s) " ++ toString missingTiers ++
    " not found in dim_mentors (available: " ++ toString available ++
    "). Check config.yaml for typos."

/-- `config.dq_max_duration_minutes if config else MAX_DURATION_MINS` (240). -/
def maxDurOf (config : Option PipelineConfig) : Int :=
  match config with
  | some c => c.dq_max_duration_minutes
  | none => 240

/-- `config.dq_max_orphan_rate if config else 0.05`. -/
def orphanThreshOf (config : Option PipelineConfig) : ℚ :=
  match config with
  | some c => c.dq_max_orphan_rate
  | none => 1/20

/-- `validate.run_checks`: run all DQ checks, returning
`(failures, warnings)`; infrastructure anomalies surface as `Except.error`
(`DataQualityError`). -/
def run_checks (db : DB) (config : Option PipelineConfig) :
    Except String (List String × List String) :=
  let max_duration_mins : Int := maxDurOf config
  -- Check 1: no negative durations (FAIL).
  match safe_fetchone db.negCount "Check 1: negative durations" with
  | Except.error e => Except.error e
  | Except.ok row1 =>
  match row1 with
  | none => Except.error "Check 1: empty result from COUNT query"
  | some negCell =>
  match negCell with
  | none => Except.error "Check 1: COUNT(*) returned None"
  | some neg_count =>
  let failuresA := if 0 < neg_count then [check1Msg neg_count] else []
  -- Check 4: duration outliers (WARN only).
  match safe_fetchone (db.outlierCount max_duration_mins)
      "Check 4: duration outliers" with
  | Except.error e => Except.error e
  | Except.ok row4 =>
  match row4 with
  | none => Except.error "Check 4: empty result from outlier check"
  | some outlierCell =>
  match outlierCell with
  | none => Except.error "Check 4: outlier count is None"
  | some outlier_count =>
  let warningsA :=
    if 0 < outlier_count then [check4Msg outlier_count max_duration_mins] else []
  -- Check 5: booking orphan rate, only when fct_bookings is materialised.
  match table_exists db.bookingsTable with
  | Except.error e => Except.error e
  | Except.ok has_fct_bookings =>
  let check5 : Except String (List String) :=
    if has_fct_bookings then
      match safe_fetchone db.orphanRow "Check 5: booking orphan rate" with
      | Except.error e => Except.error e
      | Except.ok row5 =>
      match row5 with
      | none => Except.error "Check 5: empty result from orphan check"
      | some cells =>
      match cells.1, cells.2 with
      | some total_bookings, some orphan_count =>
        if 0 < total_bookings then
          let orphan_rate : ℚ := (orphan_count : ℚ) / (total_bookings : ℚ)
          let threshold : ℚ := orphanThreshOf config
          if threshold < orphan_rate then
            Except.ok [check5Msg orphan_count total_bookings threshold]
          else Except.ok []
        else Except.ok []
      | _, _ => Except.error "Check 5: NULL values returned from orphan check"
    else Except.ok []
  match check5 with
  | Except.error e => Except.error e
  | Except.ok warningsB =>
  -- Check 6: configured tier names must exist in dim_mentors.
  let check6 : Except String (List String) :=
    match config with
    | none => Except.ok []
    | some c =>
      let all_configured := c.tiers_group_a ++ c.tiers_group_b
      if all_configured = [] then Except.ok []
      else
        match safe_fetchall (db.existingTiers all_configured)
            "Check 6: existing tiers" with
        | Except.error e => Except.error e
        | Except.ok existing =>
        match safe_fetchall db.availableTiers "Check 6: available tiers" with
        | Except.error e => Except.error e
        | Except.ok available =>
        let missing_tiers :=
          all_configured.filter (fun t => ¬ existing.contains t)
        if missing_tiers ≠ [] then
          Except.ok [check6Msg missing_tiers available]
        else Except.ok []
  match check6 with
  | Except.error e => Except.error e
  | Except.ok failuresB =>
  Except.ok (failuresA ++ failuresB, warningsA ++ warningsB)

/-! A semantic warehouse and the well-behaved oracle it induces, used to run
`run_checks` against actual data.  `sessions` is the `duration_minutes`
column of `fct_sessions`; `bookings` is `none` when `fct_bookings` is not
materialised, otherwise the `is_orphan_request` column; `mentorTiers` is the
`tier` column of `dim_mentors`.  SQL semantics: `COUNT(*)` never returns
`NULL`, while `SUM` over zero rows does. -/

structure Warehouse where
  sessions : List Int
  bookings : Option (List Bool)
  mentorTiers : List String

def insertSorted (s : String) : List String → List String
  | [] => [s]
  | a :: rest => if a ≤ s then a :: insertSorted s rest else s :: a :: rest

/-- `ORDER BY tier` (insertion sort, structurally recursive). -/
def sortStrings : List String → List String
  | [] => []
  | a :: rest => insertSorted a (sortStrings rest)

def dbOfWarehouse (wh : Warehouse) : DB where
  negCount :=
    FetchResult.row (some (some ((wh.sessions.filter (fun d => d < 0)).length : Int)))
  outlierCount := fun maxDur =>
    FetchResult.row (some (some ((wh.sessions.filter (fun d => maxDur < d)).length : Int)))
  bookingsTable :=
    FetchResult.row (some (some (match wh.bookings with
      | some _ => 1
      | none => 0)))
  orphanRow :=
    FetchResult.row (some (match wh.bookings with
      | some bs =>
        (some (bs.length : Int),
          if bs = [] then none else some ((bs.filter id).length : Int))
      | none => (some 0, none)))
  existingTiers := fun inList =>
    FetchResult.row (some ((wh.mentorTiers.dedup).filter (fun t => inList.contains t)))
  availableTiers := FetchResult.row (some (sortStrings wh.mentorTiers.dedup))

/-- `SUM`/`NULL` well-formedness of the oracle outcomes `run_checks` actually
consults: fetches succeed, count cells are non-`NULL`, and — when the
bookings table exists — the orphan row's cells are non-`NULL`. -/
def rowTruthy : Option (Option Int) → Prop
  | none => False
  | some none => False
  | some (some v) => v ≠ 0

def cleanDB (db : DB) (config : Option PipelineConfig) : Prop :=
  (∃ c, db.negCount = FetchResult.row (some (some c))) ∧
  (∃ c, db.outlierCount (maxDurOf config) = FetchResult.row (some (some c))) ∧
  (∃ r, db.bookingsTable = FetchResult.row r) ∧
  (∀ r, db.bookingsTable = FetchResult.row r → rowTruthy r →
    ∃ t o, db.orphanRow = FetchResult.row (some (some t, some o))) ∧
  (∀ c, config = some c → c.tiers_group_a ++ c.tiers_group_b ≠ [] →
    (∃ l, db.existingTiers (c.tiers_group_a ++ c.tiers_group_b) =
        FetchResult.row l) ∧
      (∃ l, db.availableTiers = FetchResult.row l))

theorem safe_fetchall_row (r : Option (List String)) (q : String) :
    safe_fetchall (FetchResult.row r) q = Except.ok (r.getD []) := by
  cases r <;> rfl

theorem safe_fetchall_err (e q : String) :
    safe_fetchall (FetchResult.err e) q =
      Except.error ("[" ++ q ++ "] DuckDB error: " ++ e) := rfl

theorem safe_fetchall_noneObj (q : String) :
    safe_fetchall FetchResult.noneObj q =
      Except.error ("[" ++ q ++ "] DuckDB returned None") := rfl

set_option maxHeartbeats 1600000 in
/-- C4: `run_checks` returns business-rule violations as data — a pair of
failure/warning lists — and never errors because of a business-rule
violation; it raises the distinguished `DataQualityError` (`Except.error`)
exactly when the query engine returns a `None`/`NULL` result where data was
expected or a database error occurs (`cleanDB` enumerates precisely those
engine anomalies, independently of any data values). -/
theorem run_checks_ok_iff_clean :
    ∀ (db : DB) (config : Option PipelineConfig),
      (∃ out, run_checks db config = Except.ok out) ↔ cleanDB db config := by
  intro db config
  obtain ⟨neg, outl, btab, orph, ext, avl⟩ := db
  constructor
  · rintro ⟨out, hout⟩
    rcases neg with e1 | _ | r1
    · simp [run_checks, safe_fetchone] at hout
    · simp [run_checks, safe_fetchone] at hout
    rcases r1 with _ | c1
    · simp [run_checks, safe_fetchone] at hout
    rcases c1 with _ | neg_count
    · simp [run_checks, safe_fetchone] at hout
    rcases h4 : outl (maxDurOf config) with e4 | _ | r4
    · simp [run_checks, safe_fetchone, h4] at hout
    · simp [run_checks, safe_fetchone, h4] at hout
    rcases r4 with _ | c4
    · simp [run_checks, safe_fetchone, h4] at hout
    rcases c4 with _ | outlier_count
    · simp [run_checks, safe_fetchone, h4] at hout
    rcases btab with e5 | _ | rb
    · simp [run_checks, safe_fetchone, table_exists, h4] at hout
    · simp [run_checks, safe_fetchone, table_exists, h4] at hout
    have horphClean : ∀ r, FetchResult.row rb = FetchResult.row r → rowTruthy r →
        ∃ t o, orph = FetchResult.row (some (some t, some o)) := by
      rcases rb with _ | cb
      · rintro r hr htr
        cases hr
        simp [rowTruthy] at htr
      rcases cb with _ | vb
      · rintro r hr htr
        cases hr
        simp [rowTruthy] at htr
      by_cases hvb : vb = 0
      · rintro r hr htr
        cases hr
        simp [rowTruthy, hvb] at htr
      · -- the bookings table exists: the orphan row must be fully populated
        have hvb' : (vb != 0) = true := by simp [hvb]
        rcases orph with e6 | _ | r6
        · simp [run_checks, safe_fetchone, table_exists, h4, hvb'] at hout
        · simp [run_checks, safe_fetchone, table_exists, h4, hvb'] at hout
        rcases r6 with _ | cells
        · simp [run_checks, safe_fetchone, table_exists, h4, hvb'] at hout
        rcases cells with ⟨t6, o6⟩
        rcases t6 with _ | total
        · simp [run_checks, safe_fetchone, table_exists, h4, hvb'] at hout
        rcases o6 with _ | orphanCount
        · simp [run_checks, safe_fetchone, table_exists, h4, hvb'] at hout
        rintro r hr htr
        exact ⟨total, orphanCount, rfl⟩
    have hcfgClean : ∀ c, config = some c →
        c.tiers_group_a ++ c.tiers_group_b ≠ [] →
        (∃ l, ext (c.tiers_group_a ++ c.tiers_group_b) = FetchResult.row l) ∧
          (∃ l, avl = FetchResult.row l) := by
      rintro c rfl hne
      rcases hext : ext (c.tiers_group_a ++ c.tiers_group_b) with e7 | _ | r7
      · exfalso
        revert hout
        rcases rb with _ | cb
        · simp [run_checks, safe_fetchone, safe_fetchall_err, safe_fetchall_noneObj, safe_fetchall_row, table_exists, h4,
            hext, hne]
        rcases cb with _ | vb
        · simp [run_checks, safe_fetchone, safe_fetchall_err, safe_fetchall_noneObj, safe_fetchall_row, table_exists, h4,
            hext, hne]
        by_cases hvb : vb = 0
        · simp [run_checks, safe_fetchone, safe_fetchall_err, safe_fetchall_noneObj, safe_fetchall_row, table_exists, h4,
            hext, hne, hvb]
        · have hvb' : (vb != 0) = true := by simp [hvb]
          rcases horphClean (some (some vb)) rfl hvb with ⟨t, o, rfl⟩
          simp [run_checks, safe_fetchone, safe_fetchall_err, safe_fetchall_noneObj, safe_fetchall_row, table_exists, h4,
            hext, hne, hvb']
          try (split_ifs <;> simp)
      · exfalso
        revert hout
        rcases rb with _ | cb
        · simp [run_checks, safe_fetchone, safe_fetchall_err, safe_fetchall_noneObj, safe_fetchall_row, table_exists, h4,
            hext, hne]
        rcases cb with _ | vb
        · simp [run_checks, safe_fetchone, safe_fetchall_err, safe_fetchall_noneObj, safe_fetchall_row, table_exists, h4,
            hext, hne]
        by_cases hvb : vb = 0
        · simp [run_checks, safe_fetchone, safe_fetchall_err, safe_fetchall_noneObj, safe_fetchall_row, table_exists, h4,
            hext, hne, hvb]
        · have hvb' : (vb != 0) = true := by simp [hvb]
          rcases horphClean (some (some vb)) rfl hvb with ⟨t, o, rfl⟩
          simp [run_checks, safe_fetchone, safe_fetchall_err, safe_fetchall_noneObj, safe_fetchall_row, table_exists, h4,
            hext, hne, hvb']
          try (split_ifs <;> simp)
      refine ⟨⟨r7, rfl⟩, ?_⟩
      rcases havl : avl with e8 | _ | r8
      · exfalso
        revert hout
        rcases rb with _ | cb
        · simp [run_checks, safe_fetchone, safe_fetchall_err, safe_fetchall_noneObj, safe_fetchall_row, table_exists, h4,
            hext, havl, hne]
        rcases cb with _ | vb
        · simp [run_checks, safe_fetchone, safe_fetchall_err, safe_fetchall_noneObj, safe_fetchall_row, table_exists, h4,
            hext, havl, hne]
        by_cases hvb : vb = 0
        · simp [run_checks, safe_fetchone, safe_fetchall_err, safe_fetchall_noneObj, safe_fetchall_row, table_exists, h4,
            hext, havl, hne, hvb]
        · have hvb' : (vb != 0) = true := by simp [hvb]
          rcases horphClean (some (some vb)) rfl hvb with ⟨t, o, rfl⟩
          simp [run_checks, safe_fetchone, safe_fetchall_err, safe_fetchall_noneObj, safe_fetchall_row, table_exists, h4,
            hext, havl, hne, hvb']
          try (split_ifs <;> simp)
      · exfalso
        revert hout
        rcases rb with _ | cb
        · simp [run_checks, safe_fetchone, safe_fetchall_err, safe_fetchall_noneObj, safe_fetchall_row, table_exists, h4,
            hext, havl, hne]
        rcases cb with _ | vb
        · simp [run_checks, safe_fetchone, safe_fetchall_err, safe_fetchall_noneObj, safe_fetchall_row, table_exists, h4,
            hext, havl, hne]
        by_cases hvb : vb = 0
        · simp [run_checks, safe_fetchone, safe_fetchall_err, safe_fetchall_noneObj, safe_fetchall_row, table_exists, h4,
            hext, havl, hne, hvb]
        · have hvb' : (vb != 0) = true := by simp [hvb]
          rcases horphClean (some (some vb)) rfl hvb with ⟨t, o, rfl⟩
          simp [run_checks, safe_fetchone, safe_fetchall_err, safe_fetchall_noneObj, safe_fetchall_row, table_exists, h4,
            hext, havl, hne, hvb']
          try (split_ifs <;> simp)
      · exact ⟨r8, rfl⟩
    exact ⟨⟨neg_count, rfl⟩, ⟨outlier_count, h4⟩, ⟨rb, rfl⟩, horphClean, hcfgClean⟩
  · rintro ⟨⟨c1, h1⟩, ⟨c4, h4⟩, ⟨rb, hb⟩, horph, hcfg⟩
    dsimp only at h1 h4 hb horph hcfg
    subst h1
    subst hb
    rcases rb with _ | cb
    · -- bookings table query returned no row: table treated as absent
      rcases config with _ | c
      · simp [run_checks, safe_fetchone, table_exists, h4]
        try (split_ifs <;> first
            | exact ⟨_, _, rfl⟩
            | exact ⟨_, rfl⟩)
      · by_cases hne : c.tiers_group_a ++ c.tiers_group_b = []
        · simp [run_checks, safe_fetchone, table_exists, h4, hne]
          try (split_ifs <;> first
            | exact ⟨_, _, rfl⟩
            | exact ⟨_, rfl⟩)
        · rcases hcfg c rfl hne with ⟨⟨l7, h7⟩, ⟨l8, h8⟩⟩
          rcases l7 with _ | ex7 <;> rcases l8 with _ | av8 <;>
            · simp [run_checks, safe_fetchone, safe_fetchall_err, safe_fetchall_noneObj, safe_fetchall_row, table_exists,
                h4, h7, h8, hne]
              try (split_ifs <;> first
            | exact ⟨_, _, rfl⟩
            | exact ⟨_, rfl⟩)
    rcases cb with _ | vb
    · rcases config with _ | c
      · simp [run_checks, safe_fetchone, table_exists, h4]
        try (split_ifs <;> first
            | exact ⟨_, _, rfl⟩
            | exact ⟨_, rfl⟩)
      · by_cases hne : c.tiers_group_a ++ c.tiers_group_b = []
        · simp [run_checks, safe_fetchone, table_exists, h4, hne]
          try (split_ifs <;> first
            | exact ⟨_, _, rfl⟩
            | exact ⟨_, rfl⟩)
        · rcases hcfg c rfl hne with ⟨⟨l7, h7⟩, ⟨l8, h8⟩⟩
          rcases l7 with _ | ex7 <;> rcases l8 with _ | av8 <;>
            · simp [run_checks, safe_fetchone, safe_fetchall_err, safe_fetchall_noneObj, safe_fetchall_row, table_exists,
                h4, h7, h8, hne]
              try (split_ifs <;> first
            | exact ⟨_, _, rfl⟩
            | exact ⟨_, rfl⟩)
    by_cases hvb : vb = 0
    · subst hvb
      rcases config with _ | c
      · simp [run_checks, safe_fetchone, table_exists, h4]
        try (split_ifs <;> first
            | exact ⟨_, _, rfl⟩
            | exact ⟨_, rfl⟩)
      · by_cases hne : c.tiers_group_a ++ c.tiers_group_b = []
        · simp [run_checks, safe_fetchone, table_exists, h4, hne]
          try (split_ifs <;> first
            | exact ⟨_, _, rfl⟩
            | exact ⟨_, rfl⟩)
        · rcases hcfg c rfl hne with ⟨⟨l7, h7⟩, ⟨l8, h8⟩⟩
          rcases l7 with _ | ex7 <;> rcases l8 with _ | av8 <;>
            · simp [run_checks, safe_fetchone, safe_fetchall_err, safe_fetchall_noneObj, safe_fetchall_row, table_exists,
                h4, h7, h8, hne]
              try (split_ifs <;> first
            | exact ⟨_, _, rfl⟩
            | exact ⟨_, rfl⟩)
    · have hvb' : (vb != 0) = true := by simp [hvb]
      rcases horph (some (some vb)) rfl hvb with ⟨t6, o6, ho⟩
      subst ho
      rcases config with _ | c
      · simp [run_checks, safe_fetchone, table_exists, h4, hvb']
        try (split_ifs <;> first
            | exact ⟨_, _, rfl⟩
            | exact ⟨_, rfl⟩)
      · by_cases hne : c.tiers_group_a ++ c.tiers_group_b = []
        · simp [run_checks, safe_fetchone, table_exists, h4, hvb', hne]
          try (split_ifs <;> first
            | exact ⟨_, _, rfl⟩
            | exact ⟨_, rfl⟩)
        · rcases hcfg c rfl hne with ⟨⟨l7, h7⟩, ⟨l8, h8⟩⟩
          rcases l7 with _ | ex7 <;> rcases l8 with _ | av8 <;>
            · simp [run_checks, safe_fetchone, safe_fetchall_err, safe_fetchall_noneObj, safe_fetchall_row, table_exists,
                h4, h7, h8, hvb', hne]
              try (split_ifs <;> first
            | exact ⟨_, _, rfl⟩
            | exact ⟨_, rfl⟩)

/-! ### Evaluating `run_checks` over the semantic warehouse -/

/-- `SELECT COUNT(*) FROM fct_sessions WHERE duration_minutes < 0`. -/
def whNeg (wh : Warehouse) : Int :=
  ((wh.sessions.filter (fun d => d < 0)).length : Int)

/-- `SELECT COUNT(*) FROM fct_sessions WHERE duration_minutes > m`. -/
def whOut (wh : Warehouse) (m : Int) : Int :=
  ((wh.sessions.filter (fun d => m < d)).length : Int)

/-- The missing configured tiers: `[t for t in all_configured if t not in existing]`. -/
def whMissing (wh : Warehouse) (configured : List String) : List String :=
  configured.filter (fun t => ¬ wh.mentorTiers.contains t)

/-- `SELECT DISTINCT tier FROM dim_mentors ORDER BY tier`. -/
def whAvailable (wh : Warehouse) : List String :=
  sortStrings wh.mentorTiers.dedup

/-- The Check-5 warnings produced on a well-formed warehouse. -/
def whCheck5 (wh : Warehouse) (thresh : ℚ) : List String :=
  match wh.bookings with
  | some bs =>
    if thresh < ((((bs.filter id).length : Int) : ℚ) / (((bs.length : Int)) : ℚ))
    then [check5Msg ((bs.filter id).length : Int) (bs.length : Int) thresh]
    else []
  | none => []

/-- The Check-6 failures produced on a well-formed warehouse. -/
def whCheck6 (wh : Warehouse) (config : Option PipelineConfig) : List String :=
  match config with
  | none => []
  | some c =>
    if c.tiers_group_a ++ c.tiers_group_b = [] then []
    else if whMissing wh (c.tiers_group_a ++ c.tiers_group_b) ≠ []
      then [check6Msg (whMissing wh (c.tiers_group_a ++ c.tiers_group_b))
        (whAvailable wh)]
      else []

theorem missing_eq (configured tiers : List String) :
    configured.filter
        (fun t => ¬ ((tiers.dedup.filter (fun x => configured.contains x)).contains t)) =
      configured.filter (fun t => ¬ tiers.contains t) := by
  apply List.filter_congr
  intro t ht
  by_cases h : t ∈ tiers
  · have h1 : (tiers.dedup.filter (fun x => configured.contains x)).contains t = true := by
      simp [List.mem_filter, List.mem_dedup]
      exact ⟨h, ht⟩
    have h2 : tiers.contains t = true := by simpa using h
    exact decide_eq_decide.2 (not_congr (iff_of_true h1 h2))
  · have h1 : ¬ ((tiers.dedup.filter (fun x => configured.contains x)).contains t = true) := by
      simp [List.mem_filter, List.mem_dedup]
      intro hmem
      exact absurd hmem h
    have h2 : ¬ (tiers.contains t = true) := by simpa using h
    exact decide_eq_decide.2 (not_congr (iff_of_false h1 h2))

set_option maxHeartbeats 1600000 in
theorem run_checks_dbOfWarehouse_eval (wh : Warehouse)
    (config : Option PipelineConfig)
    (hb : ∀ bs, wh.bookings = some bs → bs ≠ []) :
    run_checks (dbOfWarehouse wh) config =
      Except.ok
        ((if 0 < whNeg wh then [check1Msg (whNeg wh)] else []) ++
            whCheck6 wh config,
          (if 0 < whOut wh (maxDurOf config)
            then [check4Msg (whOut wh (maxDurOf config)) (maxDurOf config)]
            else []) ++
            whCheck5 wh (orphanThreshOf config)) := by
  have hmiss : ∀ configured,
      configured.filter
          (fun t => ¬ ((wh.mentorTiers.dedup.filter
            (fun x => configured.contains x)).contains t)) =
        whMissing wh configured :=
    fun configured => missing_eq configured wh.mentorTiers
  rcases hwb : wh.bookings with _ | bs
  · rcases config with _ | c
    · simp only [run_checks, dbOfWarehouse, safe_fetchone, safe_fetchall,
        table_exists, maxDurOf, orphanThreshOf, whNeg, whOut, whCheck5,
        whCheck6, hwb]
      split_ifs <;> first
        | rfl
        | simp_all
    · by_cases hne : c.tiers_group_a ++ c.tiers_group_b = []
      · simp only [run_checks, dbOfWarehouse, safe_fetchone, safe_fetchall,
          table_exists, maxDurOf, orphanThreshOf, whNeg, whOut, whCheck5,
          whCheck6, hwb, if_pos hne]
        split_ifs <;> first
          | rfl
          | simp_all
      · simp only [run_checks, dbOfWarehouse, safe_fetchone, safe_fetchall,
          table_exists, maxDurOf, orphanThreshOf, whNeg, whOut, whCheck5,
          whCheck6, hwb, if_neg hne]
        simp only [hmiss]
        split_ifs <;> first
          | rfl
          | simp_all
  · have hbs : bs ≠ [] := hb bs hwb
    have hlen : (0 : Int) < (bs.length : Int) := by
      exact_mod_cast List.length_pos.2 hbs
    rcases config with _ | c
    · simp only [run_checks, dbOfWarehouse, safe_fetchone, safe_fetchall,
        table_exists, maxDurOf, orphanThreshOf, whNeg, whOut, whCheck5,
        whCheck6, hwb, if_neg hbs, if_pos hlen]
      split_ifs <;> first
        | rfl
        | simp_all
    · by_cases hne : c.tiers_group_a ++ c.tiers_group_b = []
      · simp only [run_checks, dbOfWarehouse, safe_fetchone, safe_fetchall,
          table_exists, maxDurOf, orphanThreshOf, whNeg, whOut, whCheck5,
          whCheck6, hwb, if_neg hbs, if_pos hlen, if_pos hne]
        split_ifs <;> first
          | rfl
          | simp_all
      · simp only [run_checks, dbOfWarehouse, safe_fetchone, safe_fetchall,
          table_exists, maxDurOf, orphanThreshOf, whNeg, whOut, whCheck5,
          whCheck6, hwb, if_neg hbs, if_pos hlen, if_neg hne]
        simp only [hmiss]
        split_ifs <;> first
          | rfl
          | simp_all

theorem whMissing_ne_nil_iff (wh : Warehouse) (configured : List String) :
    whMissing wh configured ≠ [] ↔
      ∃ t ∈ configured, t ∉ wh.mentorTiers := by
  unfold whMissing
  constructor
  · intro h
    rcases List.exists_mem_of_ne_nil _ h with ⟨t, ht⟩
    rcases List.mem_filter.1 ht with ⟨h1, h2⟩
    refine ⟨t, h1, ?_⟩
    simpa using h2
  · rintro ⟨t, h1, h2⟩ hnil
    have : t ∈ configured.filter (fun t => ¬ wh.mentorTiers.contains t) :=
      List.mem_filter.2 ⟨h1, by simpa using h2⟩
    rw [hnil] at this
    simp at this

theorem whMissing_mem_iff (wh : Warehouse) (configured : List String)
    (t : String) :
    t ∈ whMissing wh configured ↔ t ∈ configured ∧ t ∉ wh.mentorTiers := by
  unfold whMissing
  simp [List.mem_filter]

theorem mem_insertSorted (s a : String) (l : List String) :
    a ∈ insertSorted s l ↔ a = s ∨ a ∈ l := by
  induction l with
  | nil => simp [insertSorted]
  | cons b rest ih =>
    by_cases h : b ≤ s <;> simp [insertSorted, h, ih] <;> tauto

theorem mem_sortStrings (a : String) (l : List String) :
    a ∈ sortStrings l ↔ a ∈ l := by
  induction l with
  | nil => simp [sortStrings]
  | cons b rest ih => simp [sortStrings, mem_insertSorted, ih]

theorem whAvailable_mem (wh : Warehouse) (s : String) :
    s ∈ whAvailable wh ↔ s ∈ wh.mentorTiers := by
  unfold whAvailable
  rw [mem_sortStrings, List.mem_dedup]

/-- C5: for every configuration whose configured tier set is non-empty and
every mentor-dimension state, `run_checks` appends a Check 6 failure if and
only if some configured tier is absent from the mentor dimension's tier
values; that failure's payload names exactly the missing configured tiers and
lists the distinct tiers actually present. -/
theorem run_checks_check6_iff_missing :
    ∀ (wh : Warehouse) (c : PipelineConfig),
      (∀ bs, wh.bookings = some bs → bs ≠ []) →
      c.tiers_group_a ++ c.tiers_group_b ≠ [] →
      ∃ F1 F6 W,
        run_checks (dbOfWarehouse wh) (some c) = Except.ok (F1 ++ F6, W) ∧
        (∀ m ∈ F1, ∃ n, m = check1Msg n) ∧
        (F6 ≠ [] ↔ ∃ t ∈ c.tiers_group_a ++ c.tiers_group_b,
          t ∉ wh.mentorTiers) ∧
        (F6 ≠ [] → F6 = [check6Msg
          (whMissing wh (c.tiers_group_a ++ c.tiers_group_b))
          (whAvailable wh)]) ∧
        (∀ t, t ∈ whMissing wh (c.tiers_group_a ++ c.tiers_group_b) ↔
          t ∈ c.tiers_group_a ++ c.tiers_group_b ∧ t ∉ wh.mentorTiers) ∧
        (∀ s, s ∈ whAvailable wh ↔ s ∈ wh.mentorTiers) := by
  intro wh c hb hne
  refine ⟨if 0 < whNeg wh then [check1Msg (whNeg wh)] else [],
    whCheck6 wh (some c),
    (if 0 < whOut wh (maxDurOf (some c))
      then [check4Msg (whOut wh (maxDurOf (some c))) (maxDurOf (some c))]
      else []) ++ whCheck5 wh (orphanThreshOf (some c)),
    run_checks_dbOfWarehouse_eval wh (some c) hb, ?_, ?_, ?_,
    fun t => whMissing_mem_iff wh _ t, fun s => whAvailable_mem wh s⟩
  · intro m hm
    by_cases h : 0 < whNeg wh
    · rw [if_pos h] at hm
      simp at hm
      exact ⟨_, hm⟩
    · rw [if_neg h] at hm
      simp at hm
  · simp only [whCheck6]
    rw [if_neg hne]
    by_cases hm : whMissing wh (c.tiers_group_a ++ c.tiers_group_b) ≠ []
    · rw [if_pos hm]
      exact iff_of_true (by simp) ((whMissing_ne_nil_iff _ _).1 hm)
    · rw [if_neg hm]
      exact iff_of_false (by simp)
        (fun hex => hm ((whMissing_ne_nil_iff _ _).2 hex))
  · intro h6
    simp only [whCheck6] at h6 ⊢
    rw [if_neg hne] at h6 ⊢
    by_cases hm : whMissing wh (c.tiers_group_a ++ c.tiers_group_b) ≠ []
    · rw [if_pos hm]
    · rw [if_neg hm] at h6
      exact absurd rfl h6

/-- A warehouse whose mentor dimension holds Gold and Silver, and a
configuration referencing the absent tier Diamond. -/
def whC5 : Warehouse := ⟨[30], none, ["Gold", "Silver"]⟩

def cfgC5 : PipelineConfig :=
  { default_session_duration_minutes := 30
    tiers_group_a := ["Gold"]
    tiers_group_b := ["Diamond"]
    rebooking_window_days := some 30
    dq_max_orphan_rate := 1/20
    dq_max_duration_minutes := 240
    step_timeout_seconds := 300 }

/-- Witness for C5: configuring the absent tier Diamond produces a non-empty
Check 6 failure. -/
theorem run_checks_check6_iff_missing_witness :
    ∃ F1 F6 W, run_checks (dbOfWarehouse whC5) (some cfgC5) =
      Except.ok (F1 ++ F6, W) ∧ F6 ≠ [] := by
  obtain ⟨F1, F6, W, hok, _, hiff, _, _, _⟩ :=
    run_checks_check6_iff_missing whC5 cfgC5 (fun bs h => Option.noConfusion h)
      (by decide)
  exact ⟨F1, F6, W, hok, hiff.2 ⟨"Diamond", by decide, by decide⟩⟩

/-- C10: when `run_checks` is called with `config = None`, the tier-existence
check (Check 6) is skipped — every returned failure is a Check 1 message —
and the built-in fallback thresholds apply: 240 minutes for the
duration-outlier warning and 1/20 (= 0.05) for the orphan-rate warning. -/
theorem run_checks_none_skips_check6_uses_default_thresholds :
    ∀ wh : Warehouse, (∀ bs, wh.bookings = some bs → bs ≠ []) →
      run_checks (dbOfWarehouse wh) none =
        Except.ok
          ((if 0 < whNeg wh then [check1Msg (whNeg wh)] else []),
            (if 0 < whOut wh 240 then [check4Msg (whOut wh 240) 240] else []) ++
              whCheck5 wh (1/20)) ∧
      (∀ F W, run_checks (dbOfWarehouse wh) none = Except.ok (F, W) →
        ∀ m ∈ F, ∃ n, m = check1Msg n) := by
  intro wh hb
  have hEval := run_checks_dbOfWarehouse_eval wh none hb
  have hEval' : run_checks (dbOfWarehouse wh) none =
      Except.ok
        ((if 0 < whNeg wh then [check1Msg (whNeg wh)] else []),
          (if 0 < whOut wh 240 then [check4Msg (whOut wh 240) 240] else []) ++
            whCheck5 wh (1/20)) := by
    simpa [whCheck6, maxDurOf, orphanThreshOf] using hEval
  refine ⟨hEval', ?_⟩
  intro F W hok m hm
  rw [hEval'] at hok
  simp only [Except.ok.injEq, Prod.mk.injEq] at hok
  obtain ⟨hF, -⟩ := hok
  subst hF
  by_cases h : 0 < whNeg wh
  · rw [if_pos h] at hm
    simp at hm
    exact ⟨_, hm⟩
  · rw [if_neg h] at hm
    simp at hm

/-- A warehouse with one negative-duration session and one outlier session,
and no bookings table. -/
def whDemo : Warehouse := ⟨[-5, 300], none, ["Gold"]⟩

/-- Witness for C10: on `whDemo` with no configuration, the only failure is
the Check 1 message and the only warning is the Check 4 message at the
built-in 240-minute threshold. -/
theorem run_checks_none_skips_check6_uses_default_thresholds_witness :
    (∀ bs, whDemo.bookings = some bs → bs ≠ []) ∧
      run_checks (dbOfWarehouse whDemo) none =
        Except.ok ([check1Msg 1], [check4Msg 1 240]) := by
  refine ⟨fun bs h => Option.noConfusion h, ?_⟩
  rw [(run_checks_none_skips_check6_uses_default_thresholds whDemo
    (fun bs h => Option.noConfusion h)).1]
  rfl

/-! ## Step timeout guard

Modelled from `src/utils.py:StepTimer` (`__enter__`, lines 70-77, and
`_watchdog`, lines 44-68).  Real time and the thread scheduler are abstracted
into two boolean observations of the `_done` event: whether it was set before
the deadline wait (`self._done.wait(self._timeout)`) expired, and whether it
was set before the grace wait (`self._done.wait(GRACE_SECONDS)`) expired.
The watchdog's cancellation decisions are a pure function of these. -/

/-- Python truthiness of `self._timeout` (`None` and `0` are falsy). -/
def timerEnabled : Option Int → Bool
  | none => false
  | some t => t != 0

/-- `StepTimer.__enter__`: the watcher thread is started iff
`if self._timeout:` is truthy. -/
def enterStartsWatcher (timeout : Option Int) : Bool := timerEnabled timeout

/-- `StepTimer._watchdog` as `(softKillSent, hardKilled)`:
return immediately when the timeout is falsy; stand down when the block
finishes before the deadline; otherwise send the soft kill and, if the grace
wait also expires, the hard kill. -/
def watchdogSignals (timeout : Option Int)
    (doneBeforeDeadline doneBeforeGrace : Bool) : Bool × Bool :=
  if ¬ timerEnabled timeout then (false, false)
  else if doneBeforeDeadline then (false, false)
  else (true, if doneBeforeGrace then false else true)

/-- C8: a zero/absent timeout disables the guard — no watcher thread is
started and no cancellation is ever delivered; and whenever the protected
block completes before the deadline, the watcher stands down: no soft kill
and no hard kill occurs. -/
theorem steptimer_disabled_or_timely_never_kills :
    (∀ timeout : Option Int, (timeout = none ∨ timeout = some 0) →
      enterStartsWatcher timeout = false ∧
      ∀ d g, watchdogSignals timeout d g = (false, false)) ∧
    (∀ (timeout : Option Int) (g : Bool),
      watchdogSignals timeout true g = (false, false)) := by
  constructor
  · rintro timeout (rfl | rfl)
    · exact ⟨rfl, fun d g => rfl⟩
    · exact ⟨rfl, fun d g => rfl⟩
  · intro timeout g
    unfold watchdogSignals
    split_ifs <;> simp_all

/-- Witness for C8: a zero timeout starts no watcher and delivers nothing; a
live 300-second timeout whose block finishes in time delivers nothing. -/
theorem steptimer_disabled_or_timely_never_kills_witness :
    ((some 0 = (none : Option Int) ∨ some (0 : Int) = some 0) ∧
      enterStartsWatcher (some 0) = false ∧
      ∀ d g, watchdogSignals (some 0) d g = (false, false)) ∧
    watchdogSignals (some 300) true false = (false, false) :=
  ⟨⟨Or.inr rfl,
      steptimer_disabled_or_timely_never_kills.1 (some 0) (Or.inr rfl)⟩,
    steptimer_disabled_or_timely_never_kills.2 (some 300) false⟩

/-! ## Ingestion idempotence

Modelled from `src/ingest.py`: `_incremental_insert` (lines 37-54), the
create-or-insert flow of `ingest_users`/`ingest_events` (dedup by primary key
`keep="first"`, then `CREATE TABLE` on first run or incremental insert), and
`ingest_mentors` (lines 107-137, full replace via `DROP TABLE IF EXISTS` +
`CREATE TABLE`).  Row-level normalisation (casts, trims) happens before these
steps and is independent of the storage semantics, so rows are abstract. -/

/-- `df.unique(subset=[pk], keep="first", maintain_order=True)`. -/
def dedupByKeyAux {R K : Type} [DecidableEq K] (pk : R → K) (seen : List K) :
    List R → List R
  | [] => []
  | r :: rest =>
    if seen.contains (pk r) then dedupByKeyAux pk seen rest
    else r :: dedupByKeyAux pk (pk r :: seen) rest

def dedupByKey {R K : Type} [DecidableEq K] (pk : R → K) (rows : List R) :
    List R :=
  dedupByKeyAux pk [] rows

/-- `_incremental_insert`: count and insert exactly the staged rows whose
primary key does not occur in the table (both evaluated against the
pre-insert table, as in the single SQL statement). -/
def incrementalInsert {R K : Type} [DecidableEq K] (pk : R → K)
    (table staged : List R) : List R × Nat :=
  let fresh := staged.filter (fun s => ¬ (table.map pk).contains (pk s))
  (table ++ fresh, fresh.length)

/-- `ingest_users` / `ingest_events` storage flow: dedup the staged frame by
primary key, then create the table (first run) or incremental-insert. -/
def ingestSource {R K : Type} [DecidableEq K] (pk : R → K)
    (table : Option (List R)) (rows : List R) : List R × Nat :=
  let df := dedupByKey pk rows
  match table with
  | none => (df, df.length)
  | some t => incrementalInsert pk t df

/-- `ingest_mentors`: always full-replace, regardless of the previous table. -/
def ingestMentorsReplace {R : Type} (prev : Option (List R)) (rows : List R) :
    List R :=
  rows

theorem pk_mem_after_insert {R K : Type} [DecidableEq K] (pk : R → K)
    (table staged : List R) :
    ∀ s ∈ staged, pk s ∈ ((incrementalInsert pk table staged).1).map pk := by
  intro s hs
  unfold incrementalInsert
  by_cases h : pk s ∈ table.map pk
  · simp only [List.map_append]
    exact List.mem_append_left _ h
  · have hfresh : s ∈ staged.filter
        (fun s => ¬ (table.map pk).contains (pk s)) := by
      refine List.mem_filter.2 ⟨hs, ?_⟩
      simpa using h
    simp only [List.map_append]
    exact List.mem_append_right _ (List.mem_map_of_mem pk hfresh)

theorem insert_nothing_of_all_present {R K : Type} [DecidableEq K]
    (pk : R → K) (table staged : List R)
    (h : ∀ s ∈ staged, pk s ∈ table.map pk) :
    incrementalInsert pk table staged = (table, 0) := by
  unfold incrementalInsert
  have hnil : staged.filter (fun s => ¬ (table.map pk).contains (pk s)) = [] := by
    rw [List.filter_eq_nil_iff]
    intro s hs
    simpa using h s hs
  rw [hnil]
  simp

/-- C9: re-ingesting an identical user or event source a second time inserts
zero new rows and leaves the table unchanged; mentor ingestion is a full
replace, so its result never depends on the previous table and running it
twice yields the same row count. -/
theorem ingestion_idempotent :
    (∀ (R K : Type) [DecidableEq K] (pk : R → K) (table : Option (List R))
      (rows : List R),
      ingestSource pk (some (ingestSource pk table rows).1) rows =
        ((ingestSource pk table rows).1, 0)) ∧
    (∀ (R : Type) (prev1 prev2 : Option (List R)) (rows : List R),
      ingestMentorsReplace prev1 rows = ingestMentorsReplace prev2 rows ∧
      (ingestMentorsReplace (some (ingestMentorsReplace prev1 rows)) rows).length =
        (ingestMentorsReplace prev1 rows).length) := by
  constructor
  · intro R K _ pk table rows
    have hall : ∀ s ∈ dedupByKey pk rows,
        pk s ∈ ((ingestSource pk table rows).1).map pk := by
      intro s hs
      rcases table with _ | t
      · exact List.mem_map_of_mem pk hs
      · exact pk_mem_after_insert pk t (dedupByKey pk rows) s hs
    show incrementalInsert pk (ingestSource pk table rows).1 (dedupByKey pk rows) =
      ((ingestSource pk table rows).1, 0)
    exact insert_nothing_of_all_present pk _ _ hall
  · intro R prev1 prev2 rows
    exact ⟨rfl, rfl⟩

-- Sanity: dedup keeps the first row per key; replay inserts nothing.
example : ingestSource (fun r : Int × String => r.1) none
    [(1, "a"), (1, "b"), (2, "c")] = ([(1, "a"), (2, "c")], 2) := by decide

example : ingestSource (fun r : Int × String => r.1) (some [(1, "a"), (2, "c")])
    [(1, "a"), (1, "b"), (2, "c")] = ([(1, "a"), (2, "c")], 0) := by decide

end Pack
